import Mathlib

/-!
Verification of the browser-automation RL environment (`env.py` / `env_step.py`).

Strings are modelled as `List Char`.  The embedding covers, faithfully to the
source:
* the Python string primitives used by the code (`strip`, `split`, `in`,
  `startswith`, `int()`);
* the element-text formatting loop of `WebController.get_web_element_rect`;
* the three action regexes of `BrowserEnv._parse_and_execute` together with
  their exact backtracking semantics under `re.match(..., re.IGNORECASE)`;
* `WebController.execute_raw_action`, with the underlying Selenium driver
  modelled as an oracle assigning a success/exception outcome to each driver
  operation, and the list of attempted driver operations recorded;
* the action-line extraction and reward logic of `BrowserEnv.step`;
* the polling loop of `WebController._wait_for_stable_url`, with time counted
  in half-second ticks (one tick per `time.sleep(0.5)`), so the Python default
  `timeout=5.0` corresponds to `timeout = 10` ticks.
-/

namespace WebAgent

/-- Python `str.isspace` characters relevant to `str.strip()` (ASCII range). -/
def pyIsSpace (c : Char) : Bool :=
  c == ' ' || c == '\t' || c == '\n' || c == '\r' || c == Char.ofNat 11 || c == Char.ofNat 12

/-- Left part of Python `str.strip()`. -/
def lstripPy (l : List Char) : List Char := l.dropWhile pyIsSpace

/-- Right part of Python `str.strip()`. -/
def rstripPy (l : List Char) : List Char := (l.reverse.dropWhile pyIsSpace).reverse

/-- Python `str.strip()` with no argument: whitespace removed from both ends. -/
def pstrip (l : List Char) : List Char := rstripPy (lstripPy l)

/-- Python substring containment `needle in hay`. -/
def containsSub (needle : List Char) : List Char → Bool
  | [] => needle.isEmpty
  | c :: t => needle.isPrefixOf (c :: t) || containsSub needle t

/-- Python `s.split(sep)[0]` for `sep = "\n"`: the text up to the first newline. -/
def firstLine (l : List Char) : List Char := l.takeWhile (fun c => !(c == '\n'))

/-- Fuelled worker for Python `str.split(sep)` with a non-empty separator:
scans left to right, splitting at each non-overlapping occurrence.  Each step
consumes at least one input character, so any fuel exceeding the input length
is sufficient; the fuel only makes the recursion structural. -/
def splitGoF (sep : List Char) : Nat → List Char → List Char → List (List Char)
  | 0, s, acc => [acc.reverse ++ s]
  | _ + 1, [], acc => [acc.reverse]
  | fuel + 1, c :: rest, acc =>
    if sep.isPrefixOf (c :: rest) then
      acc.reverse :: splitGoF sep fuel (List.drop (sep.length - 1) rest) []
    else
      splitGoF sep fuel rest (c :: acc)

/-- Python `str.split(sep)` (non-empty separator) on the whole input. -/
def splitGo (sep s : List Char) : List (List Char) :=
  splitGoF sep (s.length + 1) s []

/-- The literal marker `"Action:"` used by `BrowserEnv.step`. -/
def actionMarker : List Char := ("Action:").data

/-- Embeds the action-line extraction of `BrowserEnv.step` (env.py lines
528-532): `if "Action:" in model_content: parts = model_content.split("Action:");
if len(parts) > 1: action_line = parts[1].strip().split('\n')[0]`. -/
def extract_action_line (model_content : List Char) : List Char :=
  if containsSub actionMarker model_content then
    let parts := splitGo actionMarker model_content
    if 1 < parts.length then firstLine (pstrip (parts.getD 1 [])) else model_content
  else model_content

/-- Modelled from the spec: "only the text after the last such marker,
truncated at the first newline" — the extraction rule as the specification
words it, used to compare against the source's `extract_action_line`. -/
def spec_after_last_marker (model_content : List Char) : List Char :=
  if containsSub actionMarker model_content then
    firstLine (pstrip ((splitGo actionMarker model_content).getLastD []))
  else model_content

/-- Matches the case-insensitive literal chars of a regex pattern against the
start of the input, returning the rest of the input. -/
def dropCILit : List Char → List Char → Option (List Char)
  | [], s => some s
  | _ :: _, [] => none
  | p :: ps, c :: cs => if p.toLower == c.toLower then dropCILit ps cs else none

/-- Matches a case-insensitive literal, returning the matched original input
characters (case preserved, as a regex capturing group does) and the rest. -/
def takeCILit : List Char → List Char → Option (List Char × List Char)
  | [], s => some ([], s)
  | _ :: _, [] => none
  | p :: ps, c :: cs =>
    if p.toLower == c.toLower then
      match takeCILit ps cs with
      | some r => some (c :: r.1, r.2)
      | none => none
    else none

/-- Consumes the optional `\[?` of the action regexes.  (When a `[` is present
but what must follow it fails, the regex's fallback of not consuming the `[`
also fails on the `[` itself, so unconditional consumption is faithful.) -/
def skipLBracket : List Char → List Char
  | '[' :: r => r
  | s => s

/-- Consumes the optional `\]?` of the action regexes. -/
def skipRBracket : List Char → List Char
  | ']' :: r => r
  | s => s

/-- Character class `[; ]` of the Type/Scroll regexes. -/
def isSepChar (c : Char) : Bool := c == ';' || c == ' '

/-- Embeds `re.match(r"Click \[?(\d+)\]?", text, re.IGNORECASE)`: returns
group 1 (the digit string). -/
def matchClick (s : List Char) : Option (List Char) :=
  match dropCILit (("click ").data) s with
  | none => none
  | some r0 =>
    match (skipLBracket r0).takeWhile Char.isDigit with
    | [] => none
    | ds => some ds

/-- Content sub-match `\[?(.[^\]]*)\]?` of the Type regex, applied after the
greedy separator run `seps` with remainder `r4`.  `.` does not match `'\n'`;
`[^\]]` does.  When `.` fails at the remainder, the regex backtracks: first
the optional `\[?`, then by giving one character back from the separator run
(possible only when the run has length at least 2). -/
def typeContent (seps r4 : List Char) : Option (List Char) :=
  match r4 with
  | [] => if 2 ≤ seps.length then some ([seps.getLastD ' ']) else none
  | c :: cs =>
    if c == '[' then
      match cs with
      | [] => some (['['])
      | d :: ds =>
        if d == '\n' then some ('[' :: List.takeWhile (fun x => !(x == ']')) cs)
        else some (d :: List.takeWhile (fun x => !(x == ']')) ds)
    else if c == '\n' then
      if 2 ≤ seps.length then
        some (seps.getLastD ' ' :: List.takeWhile (fun x => !(x == ']')) r4)
      else none
    else some (c :: List.takeWhile (fun x => !(x == ']')) cs)

/-- Embeds `re.match(r"Type \[?(\d+)\]?[; ]+\[?(.[^\]]*)\]?", text,
re.IGNORECASE)`: returns (group 1, group 2). -/
def matchType (s : List Char) : Option (List Char × List Char) :=
  match dropCILit (("type ").data) s with
  | none => none
  | some r0 =>
    let r1 := skipLBracket r0
    match r1.takeWhile Char.isDigit with
    | [] => none
    | ds =>
      let r3 := skipRBracket (r1.dropWhile Char.isDigit)
      match r3.takeWhile isSepChar with
      | [] => none
      | seps =>
        match typeContent seps (r3.dropWhile isSepChar) with
        | some content => some (ds, content)
        | none => none

/-- Embeds `re.match(r"Scroll \[?(\d+|WINDOW)\]?[; ]+\[?(up|down)\]?", text,
re.IGNORECASE)`: returns (group 1, group 2), each with the input's original
case preserved, as `re` groups are slices of the input. -/
def matchScroll (s : List Char) : Option (List Char × List Char) :=
  match dropCILit (("scroll ").data) s with
  | none => none
  | some r0 =>
    let r1 := skipLBracket r0
    let tg? : Option (List Char × List Char) :=
      match r1.takeWhile Char.isDigit with
      | [] => takeCILit (("window").data) r1
      | ds => some (ds, r1.dropWhile Char.isDigit)
    match tg? with
    | none => none
    | some (target, r2) =>
      let r3 := skipRBracket r2
      match r3.takeWhile isSepChar with
      | [] => none
      | _ =>
        let r5 := skipLBracket (r3.dropWhile isSepChar)
        match takeCILit (("up").data) r5 with
        | some (dir, _) => some (target, dir)
        | none =>
          match takeCILit (("down").data) r5 with
          | some (dir, _) => some (target, dir)
          | none => none

/-- The parsed action produced by the ordered dispatch of
`BrowserEnv._parse_and_execute`. -/
inductive PAction where
  | answer (text : List Char)
  | click (id : List Char)
  | typeIn (id content : List Char)
  | scroll (target direction : List Char)
  | wait
  | goback
  | google
  | invalid
deriving DecidableEq

/-- The parsing phase of `BrowserEnv._parse_and_execute` (env.py lines
475-515): strip, then the checks in source order — `startswith("ANSWER")`
(case-sensitive), the Click regex, the Type regex, the Scroll regex, then the
case-sensitive substring checks for `"Wait"`, `"GoBack"`, `"Google"`, and
finally the format-error fallback. -/
def parseAction (action_text : List Char) : PAction :=
  let t := pstrip action_text
  if (("ANSWER").data).isPrefixOf t then .answer t
  else
    match matchClick t with
    | some id => .click id
    | none =>
      match matchType t with
      | some (id, content) => .typeIn id content
      | none =>
        match matchScroll t with
        | some (tg, dir) => .scroll tg dir
        | none =>
          if containsSub (("Wait").data) t then .wait
          else if containsSub (("GoBack").data) t then .goback
          else if containsSub (("Google").data) t then .google
          else .invalid

/-- ASCII apostrophe, used inside feedback messages. -/
def apos : Char := Char.ofNat 39

/-- One operation attempted against the Selenium driver by
`WebController.execute_raw_action` (or, for `capture`, by
`WebController.get_capture`; `close` is `WebController.close`). -/
inductive BrowserOp where
  | setSelfTarget (idx : Nat)
  | clickEle (idx : Nat)
  | waitStableSecs (secs : Nat)
  | clearEle (idx : Nat)
  | typeChain (idx : Nat) (content : List Char)
  | scrollWinBy (amount : Int)
  | scrollAtEle (idx : Nat) (down : Bool)
  | sleep (secs : Nat)
  | back
  | navGet (url : List Char)
  | capture
  | close
deriving DecidableEq

/-- The driver, modelled as an oracle: each attempted operation either succeeds
or raises an exception carrying a message. -/
structure Browser where
  run : BrowserOp → Except (List Char) Unit

/-- Runs a sequence of driver operations inside the `try:` of
`execute_raw_action`: stops at the first exception (whose op is still recorded
as attempted), returning the exception message and the attempted operations. -/
def runOps (br : Browser) : List BrowserOp → Option (List Char) × List BrowserOp
  | [] => (none, [])
  | op :: rest =>
    match br.run op with
    | .error e => (some e, [op])
    | .ok _ =>
      let r := runOps br rest
      (r.1, op :: r.2)

/-- Runs the operations of one action branch: on success the branch's feedback
string, on an exception the `except Exception as e: return f"Action Failed:
{str(e)}"` conversion. -/
def tryOps (br : Browser) (ops : List BrowserOp) (success : List Char) :
    List Char × List BrowserOp :=
  match runOps br ops with
  | (some e, ps) => ((("Action Failed: ").data) ++ e, ps)
  | (none, ps) => (success, ps)

/-- Python `int(s)` on the argument strings reachable here (regex groups
`\d+` or `WINDOW`/`window`-style words): a non-empty all-digit string parses,
anything else raises `ValueError`. -/
def digitsVal (l : List Char) : Nat :=
  l.foldl (fun a c => a * 10 + (c.toNat - ('0').toNat)) 0

/-- Python `int()` with its `ValueError` message. -/
def pyInt (l : List Char) : Except (List Char) Nat :=
  if !l.isEmpty && l.all Char.isDigit then .ok (digitsVal l)
  else .error ((("invalid literal for int() with base 10: ").data) ++ [apos] ++ l ++ [apos])

/-- The `args` dict passed to `execute_raw_action`; absent keys raise
`KeyError` when read. -/
structure RawArgs where
  id : Option (List Char) := none
  content : Option (List Char) := none
  target : Option (List Char) := none
  direction : Option (List Char) := none

/-- Python `args[key]`: `KeyError` carries the key. -/
def getKey (v : Option (List Char)) (key : List Char) : Except (List Char) (List Char) :=
  match v with
  | some x => .ok x
  | none => .error ([apos] ++ key ++ [apos])

/-- Feedback string `"Error: Element ID out of range."`. -/
def outOfRangeMsg : List Char := ("Error: Element ID out of range.").data

/-- Feedback prefix used for every exception caught by `execute_raw_action`. -/
def actionFailedPre : List Char := ("Action Failed: ").data

/-- Embeds `WebController.execute_raw_action` (env.py lines 310-373).  The
element context is represented by `webElesLen = len(context['web_eles'])`;
`winH` is the window height (800 in env.py, 1080 in env_step.py).  All
exceptions — `KeyError`/`ValueError` from argument handling and driver
exceptions from the oracle — are converted to `"Action Failed: …"` feedback
by the surrounding `try/except`.  Note the `'google'` branch calls
`WebController.navigate`, which absorbs every exception internally (its own
`try/except` merely logs), so its feedback is fixed. -/
def execute_raw_action (br : Browser) (winH : Nat) (action_type : List Char)
    (args : RawArgs) (webElesLen : Nat) : List Char × List BrowserOp :=
  if action_type == ("click").data then
    match (getKey args.id (("id").data)).bind pyInt with
    | .error e => (actionFailedPre ++ e, [])
    | .ok idx =>
      if idx < webElesLen then
        tryOps br [.setSelfTarget idx, .clickEle idx, .waitStableSecs 3] (("Clicked.").data)
      else (outOfRangeMsg, [])
  else if action_type == ("type").data then
    match (getKey args.id (("id").data)).bind pyInt with
    | .error e => (actionFailedPre ++ e, [])
    | .ok idx =>
      match getKey args.content (("content").data) with
      | .error e => (actionFailedPre ++ e, [])
      | .ok content =>
        if idx < webElesLen then
          tryOps br [.clearEle idx, .typeChain idx content, .waitStableSecs 5]
            ((("Typed ").data) ++ [apos] ++ content ++ [apos, '.'])
        else (outOfRangeMsg, [])
  else if action_type == ("scroll").data then
    match getKey args.target (("target").data) with
    | .error e => (actionFailedPre ++ e, [])
    | .ok target =>
      match getKey args.direction (("direction").data) with
      | .error e => (actionFailedPre ++ e, [])
      | .ok direction =>
        let amount : Int := Int.ofNat (winH * 2 / 3)
        let fb := (("Scrolled ").data) ++ direction ++ ['.']
        if target == ("WINDOW").data then
          tryOps br
            [.scrollWinBy (if direction == ("down").data then amount else -amount), .sleep 1] fb
        else
          match pyInt target with
          | .error e => (actionFailedPre ++ e, [])
          | .ok idx =>
            if idx < webElesLen then
              tryOps br [.scrollAtEle idx (direction == ("down").data), .sleep 1] fb
            else
              tryOps br [.sleep 1] fb
  else if action_type == ("wait").data then
    tryOps br [.sleep 5] (("Waited 5s.").data)
  else if action_type == ("goback").data then
    tryOps br [.back, .waitStableSecs 5] (("Went back.").data)
  else if action_type == ("google").data then
    ((("Navigated to Google.").data), [.navGet (("https://www.google.com").data)])
  else ((("Unknown Action.").data), [])

/-- The fixed format-error feedback returned by `_parse_and_execute`. -/
def invalidFormatMsg : List Char :=
  (("Invalid Action Format. Please strictly follow the format: ").data)
    ++ [apos] ++ (("Click [id]").data) ++ [apos, ',', ' ', apos]
    ++ (("Type [id]; [content]").data) ++ [apos]
    ++ ((", etc. Check your syntax and try again.").data)

/-- Embeds `BrowserEnv._parse_and_execute` (env.py lines 475-515): dispatches
on the parsed action (same ordered checks as `parseAction`) and executes it,
returning `(feedback, done)` plus the attempted driver operations. -/
def parse_and_execute (br : Browser) (winH webElesLen : Nat) (action_text : List Char) :
    List Char × Bool × List BrowserOp :=
  match parseAction action_text with
  | .answer t => ((("Answered: ").data) ++ t, true, [])
  | .click id =>
    let r := execute_raw_action br winH (("click").data) { id := some id } webElesLen
    (r.1, false, r.2)
  | .typeIn id content =>
    let r := execute_raw_action br winH (("type").data)
      { id := some id, content := some content } webElesLen
    (r.1, false, r.2)
  | .scroll tg dir =>
    let r := execute_raw_action br winH (("scroll").data)
      { target := some tg, direction := some dir } webElesLen
    (r.1, false, r.2)
  | .wait =>
    let r := execute_raw_action br winH (("wait").data) {} webElesLen
    (r.1, false, r.2)
  | .goback =>
    let r := execute_raw_action br winH (("goback").data) {} webElesLen
    (r.1, false, r.2)
  | .google =>
    let r := execute_raw_action br winH (("google").data) {} webElesLen
    (r.1, false, r.2)
  | .invalid => (invalidFormatMsg, false, [])

/-- The observable parts of the `StepResult` built by `BrowserEnv.step`:
`nextEmpty` records whether `next_observation` is the terminal sentinel
`ModelInput.empty()`; the reward (a float that is 1.0, 0.0 or -1.0) and the two metric
floats are carried as integers. -/
structure StepOut where
  nextEmpty : Bool
  episode_done : Bool
  reward : Int
  success : Int
  format_error : Int
deriving DecidableEq

/-- Embeds `BrowserEnv.step` (env.py lines 517-564): extracts the action line,
parses and executes it, computes the reward by substring checks on the
feedback, and emits the metrics.  In the non-terminal branch `_format_msg`
performs a fresh capture (recorded as a `capture` driver operation); in the
terminal branch `next_observation = ModelInput.empty()` and no further driver
operation occurs. -/
def stepFn (br : Browser) (winH webElesLen : Nat) (model_content : List Char) :
    StepOut × List BrowserOp :=
  let action_line := extract_action_line model_content
  let r := parse_and_execute br winH webElesLen action_line
  let feedback := r.1
  let done := r.2.1
  let reward : Int :=
    if done && containsSub (("Answered").data) feedback then 1
    else if containsSub (("Invalid Action Format").data) feedback then -1
    else 0
  ({ nextEmpty := done, episode_done := done, reward := reward,
     success := if 0 < reward then 1 else 0,
     format_error := if reward < 0 then 1 else 0 },
   r.2.2 ++ (if done then [] else [BrowserOp.capture]))

/-- A driver oracle on which every operation succeeds. -/
def okBrowser : Browser := ⟨fun _ => .ok ()⟩

/-- A driver oracle on which every operation raises `"boom"`. -/
def boomBrowser : Browser := ⟨fun _ => .error (("boom").data)⟩

/-- One raw element `items_raw[i]` as read back by `get_web_element_rect`:
its (already trimmed, whitespace-collapsed) `textContent`, its Selenium
`tag_name`, and its `type` / `aria-label` attributes (`None` when absent). -/
structure RawItem where
  text : List Char
  tagName : List Char
  typeAttr : Option (List Char)
  ariaLabel : Option (List Char)
deriving DecidableEq

/-- ASCII double quote, used inside the formatted element text. -/
def dq : Char := Char.ofNat 34

/-- Python truthiness of an optional string attribute. -/
def optTruthy : Option (List Char) → Bool
  | some s => !s.isEmpty
  | none => false

/-- Python `ele_type in input_attr_types` (a `None` attribute is never a
member). -/
def optMem (o : Option (List Char)) (xs : List (List Char)) : Bool :=
  match o with
  | some v => xs.contains v
  | none => false

/-- The `input_attr_types` list of `get_web_element_rect`. -/
def inputAttrTypes : List (List Char) :=
  [("text").data, ("search").data, ("password").data, ("email").data, ("tel").data]

/-- Lower-cases a string (Python `str.lower()` on the tag name). -/
def lowerL (l : List Char) : List Char := l.map Char.toLower

/-- Decides whether the formatting loop of `get_web_element_rect` (env.py
lines 256-275) appends a text entry for this element: empty-text elements
only when they are a textual input, a textarea, or a submit/ordinary button;
non-empty-text elements only when the text is shorter than 200 characters and
does not look like embedded `<img src=…>` markup. -/
def hasTextEntry (it : RawItem) : Bool :=
  if it.text.isEmpty then
    (lowerL it.tagName == ("input").data && optMem it.typeAttr inputAttrTypes)
      || lowerL it.tagName == ("textarea").data
      || (lowerL it.tagName == ("button").data
            && optMem it.typeAttr [("submit").data, ("button").data])
  else if it.text.length < 200 then
    !(containsSub (("<img").data) it.text && containsSub (("src=").data) it.text)
  else false

/-- Decimal digits of a natural number. -/
def natChars (n : Nat) : List Char := (toString n).data

/-- The text entry appended for element `i` by `get_web_element_rect`:
`f"[{i}]: <{tag}> \"{content}\";"` in the empty-text branch and
`f"[{i}]: {prefix}{desc};"` in the non-empty branch. -/
def entryText (i : Nat) (it : RawItem) : List Char :=
  if it.text.isEmpty then
    let content :=
      match it.ariaLabel with
      | some a => if a.isEmpty then it.text else a
      | none => it.text
    ['['] ++ natChars i ++ (("]: <").data) ++ it.tagName ++ (("> ").data)
      ++ [dq] ++ content ++ [dq, ';']
  else
    let desc0 := [dq] ++ it.text ++ [dq]
    let desc :=
      if optTruthy it.ariaLabel && !(it.ariaLabel.getD [] == it.text) then
        desc0 ++ ((", ").data) ++ [dq] ++ it.ariaLabel.getD [] ++ [dq]
      else desc0
    let pfx :=
      if [("button").data, ("input").data, ("textarea").data].contains it.tagName then
        ['<'] ++ it.tagName ++ (("> ").data)
      else []
    ['['] ++ natChars i ++ (("]: ").data) ++ pfx ++ desc ++ [';']

/-- The labelled text entries produced by the for-loop of
`get_web_element_rect`: one `(i, entry)` pair per element index `i` for which
the loop appends an entry. -/
def formatEntryPairs (items : List RawItem) : List (Nat × List Char) :=
  items.enum.filterMap fun p =>
    if hasTextEntry p.2 then some (p.1, entryText p.1 p.2) else none

/-- The labels that actually appear in the rendered element text. -/
def textLabels (items : List RawItem) : List Nat :=
  (formatEntryPairs items).map Prod.fst

/-- The element-reference list returned by `get_web_element_rect`:
`[web_ele['element'] for web_ele in items_raw]`, i.e. every raw item. -/
def web_ele_refs (items : List RawItem) : List RawItem := items

/-- The joined element text `'\t'.join(format_ele_text)`. -/
def format_ele_text (items : List RawItem) : List Char :=
  List.intercalate (['\t']) ((formatEntryPairs items).map Prod.snd)

/-- The (refs, text) part of `get_web_element_rect`'s return value (the
injected visual rectangles are presentation-only and not modelled). -/
def get_web_element_rect (items : List RawItem) : List RawItem × List Char :=
  (web_ele_refs items, format_ele_text items)

/-- Mutable state of the polling loop of `_wait_for_stable_url`, in
half-second ticks: current time, current deadline (`end_time`), the last URL
read, and `stable_counter`. -/
structure WaitState where
  now : Nat
  endTime : Nat
  lastUrl : List Char
  stable : Nat
deriving DecidableEq

/-- Embeds the `while` loop of `_wait_for_stable_url` (env.py lines 174-183).
`reads i` is the URL the driver reports on the i-th iteration; each iteration
first checks `time.time() < end_time`, then sleeps one tick.  Two consecutive
identical reads break the loop; a changed read RESETS the deadline to
`time.time() + timeout`.  Returns the number of loop iterations executed, or
`none` if the loop is still running when the fuel is exhausted. -/
def wfsuLoop (reads : Nat → List Char) (timeout : Nat) :
    Nat → Nat → WaitState → Option Nat
  | 0, _, _ => none
  | fuel + 1, i, s =>
    if s.now < s.endTime then
      let now2 := s.now + 1
      let url := reads i
      if url == s.lastUrl then
        if 2 ≤ s.stable + 1 then some (i + 1)
        else wfsuLoop reads timeout fuel (i + 1)
          { s with now := now2, stable := s.stable + 1 }
      else
        wfsuLoop reads timeout fuel (i + 1)
          { now := now2, endTime := now2 + timeout, lastUrl := url, stable := 0 }
    else some i

/-- Embeds `_wait_for_stable_url(timeout)`: `end_time = time.time() + timeout;
last_url = driver.current_url; stable_counter = 0`, then the loop.  Entry time
is 0; `initUrl` is the URL read before the loop. -/
def wait_for_stable_url (reads : Nat → List Char) (initUrl : List Char)
    (timeout fuel : Nat) : Option Nat :=
  wfsuLoop reads timeout fuel 0 { now := 0, endTime := timeout, lastUrl := initUrl, stable := 0 }

/-- A URL stream that differs on every single read. -/
def everChangingReads (i : Nat) : List Char := List.replicate i ('a')

/-- An action line of shape `Click [<d>]<rest>`. -/
def clickLine (d rest : List Char) : List Char :=
  (("Click [").data) ++ (d ++ (']' :: rest))

/-- An action line of shape `Type [<d>]; [<content>`. -/
def typeLine (d content : List Char) : List Char :=
  (("Type [").data) ++ (d ++ ((("]; [").data) ++ content))

/-- An action line of shape `Scroll [<d>]; [up]<rest>`. -/
def scrollLine (d rest : List Char) : List Char :=
  (("Scroll [").data) ++ (d ++ ((("]; [up]").data) ++ rest))

/-! ## Helper lemmas -/

theorem takeWhile_append_not (p : Char → Bool) (d r : List Char)
    (hd : ∀ c ∈ d, p c = true) (hr : ∀ c, r.head? = some c → p c = false) :
    (d ++ r).takeWhile p = d := by
  induction d with
  | nil =>
    cases r with
    | nil => rfl
    | cons c t => simp [List.takeWhile_cons, hr c rfl]
  | cons a d ih =>
    simp only [List.cons_append, List.takeWhile_cons, hd a (by simp), if_true]
    rw [ih (fun c hc => hd c (by simp [hc]))]

theorem dropWhile_append_not (p : Char → Bool) (d r : List Char)
    (hd : ∀ c ∈ d, p c = true) (hr : ∀ c, r.head? = some c → p c = false) :
    (d ++ r).dropWhile p = r := by
  induction d with
  | nil =>
    cases r with
    | nil => rfl
    | cons c t => simp [List.dropWhile_cons, hr c rfl]
  | cons a d ih =>
    simp only [List.cons_append, List.dropWhile_cons, hd a (by simp), if_true]
    exact ih (fun c hc => hd c (by simp [hc]))

theorem dropWhile_head_false (p : Char → Bool) (l : List Char)
    (hr : ∀ c, l.head? = some c → p c = false) : l.dropWhile p = l := by
  cases l with
  | nil => rfl
  | cons c t => simp [List.dropWhile_cons, hr c rfl]

theorem rstripPy_append (l m : List Char) (c : Char)
    (hc : l.getLast? = some c) (hs : pyIsSpace c = false) :
    rstripPy (l ++ m) = l ++ rstripPy m := by
  have hrev : l.reverse.dropWhile pyIsSpace = l.reverse := by
    refine dropWhile_head_false _ _ (fun x hx => ?_)
    rw [List.head?_reverse, hc] at hx
    cases hx
    exact hs
  unfold rstripPy
  rw [List.reverse_append, List.dropWhile_append]
  by_cases he : (List.dropWhile pyIsSpace m.reverse).isEmpty = true
  · rw [if_pos he, hrev, List.reverse_reverse]
    have : List.dropWhile pyIsSpace m.reverse = [] := by
      simpa [List.isEmpty_iff] using he
    rw [this]
    simp
  · rw [if_neg he, List.reverse_append, List.reverse_reverse]

theorem lstripPy_clickLine (d rest : List Char) :
    lstripPy (clickLine d rest) = clickLine d rest := rfl

theorem getLast?_clickLine_core (d : List Char) :
    (((("Click [").data) ++ d) ++ [']']).getLast? = some (']') := by
  rw [List.getLast?_concat]

theorem clickLine_assoc (d rest : List Char) :
    clickLine d rest = (((("Click [").data) ++ d) ++ [']']) ++ rest := by
  simp [clickLine]

theorem pstrip_clickLine (d rest : List Char) :
    pstrip (clickLine d rest) = clickLine d (rstripPy rest) := by
  unfold pstrip
  rw [lstripPy_clickLine, clickLine_assoc,
    rstripPy_append _ _ _ (getLast?_clickLine_core d) (by decide),
    ← clickLine_assoc]

theorem matchClick_digits (d rest : List Char) (hd : d ≠ [])
    (hdig : ∀ c ∈ d, c.isDigit = true) :
    matchClick (clickLine d rest) = some d := by
  obtain ⟨c0, d0, rfl⟩ : ∃ c0 d0, d = c0 :: d0 := by
    cases d with
    | nil => exact absurd rfl hd
    | cons a b => exact ⟨a, b, rfl⟩
  have h1 : dropCILit (("click ").data) (clickLine (c0 :: d0) rest)
      = some ('[' :: ((c0 :: d0) ++ ']' :: rest)) := rfl
  have h2 : skipLBracket ('[' :: ((c0 :: d0) ++ ']' :: rest)) = (c0 :: d0) ++ ']' :: rest := rfl
  have h3 : ((c0 :: d0) ++ ']' :: rest).takeWhile Char.isDigit = c0 :: d0 :=
    takeWhile_append_not _ _ _ hdig (by intro c hc; cases hc; decide)
  simp only [matchClick, h1, h2, h3]

theorem typeLine_assoc (d content : List Char) :
    typeLine d content = (((("Type [").data) ++ d) ++ (("]; [").data)) ++ content := by
  simp [typeLine]

theorem getLast?_typeLine_core (d : List Char) :
    (((("Type [").data) ++ d) ++ (("]; [").data)).getLast? = some ('[') := by
  have : (("]; [").data) = ((("]; ").data) ++ ['[']) := rfl
  rw [this, ← List.append_assoc, List.getLast?_concat]

theorem pstrip_typeLine (d content : List Char) :
    pstrip (typeLine d content) = typeLine d (rstripPy content) := by
  unfold pstrip
  have h1 : lstripPy (typeLine d content) = typeLine d content := rfl
  rw [h1, typeLine_assoc,
    rstripPy_append _ _ _ (getLast?_typeLine_core d) (by decide),
    ← typeLine_assoc]

theorem matchType_shape (d : List Char) (h : Char) (t : List Char) (hd : d ≠ [])
    (hdig : ∀ c ∈ d, c.isDigit = true) (hn : h ≠ '\n') :
    matchType (typeLine d (h :: t))
      = some (d, h :: t.takeWhile (fun x => !(x == ']'))) := by
  obtain ⟨c0, d0, rfl⟩ : ∃ c0 d0, d = c0 :: d0 := by
    cases d with
    | nil => exact absurd rfl hd
    | cons a b => exact ⟨a, b, rfl⟩
  have h1 : dropCILit (("type ").data) (typeLine (c0 :: d0) (h :: t))
      = some ('[' :: ((c0 :: d0) ++ ((("]; [").data) ++ h :: t))) := rfl
  have h2 : skipLBracket ('[' :: ((c0 :: d0) ++ ((("]; [").data) ++ h :: t)))
      = (c0 :: d0) ++ ((("]; [").data) ++ h :: t) := rfl
  have hnd : ∀ c, (((("]; [").data) ++ h :: t)).head? = some c → c.isDigit = false := by
    intro c hc; cases hc; decide
  have h3 : ((c0 :: d0) ++ ((("]; [").data) ++ h :: t)).takeWhile Char.isDigit = c0 :: d0 :=
    takeWhile_append_not _ _ _ hdig hnd
  have h4 : ((c0 :: d0) ++ ((("]; [").data) ++ h :: t)).dropWhile Char.isDigit
      = (("]; [").data) ++ h :: t :=
    dropWhile_append_not _ _ _ hdig hnd
  have h5 : skipRBracket ((("]; [").data) ++ h :: t) = (("; [").data) ++ h :: t := rfl
  have h6 : ((("; [").data) ++ h :: t).takeWhile isSepChar = [';', ' '] := rfl
  have h7 : ((("; [").data) ++ h :: t).dropWhile isSepChar = '[' :: h :: t := rfl
  have h8 : typeContent ([';', ' ']) ('[' :: h :: t)
      = some (h :: t.takeWhile (fun x => !(x == ']'))) := by
    have hb : (h == '\n') = false := by
      cases hbe : h == '\n' with
      | true => exact absurd (by simpa using hbe) hn
      | false => rfl
    simp [typeContent, hb]
  simp only [matchType, h1, h2, h3, h4, h5, h6, h7, h8]

theorem pyInt_digits (d : List Char) (hd : d ≠ []) (hdig : ∀ c ∈ d, c.isDigit = true) :
    pyInt d = .ok (digitsVal d) := by
  have h1 : d.isEmpty = false := by
    cases d with
    | nil => exact absurd rfl hd
    | cons a b => rfl
  have h2 : d.all Char.isDigit = true := List.all_eq_true.mpr hdig
  simp [pyInt, h1, h2]

theorem parseAction_clickLine (d rest : List Char) (hd : d ≠ [])
    (hdig : ∀ c ∈ d, c.isDigit = true) :
    parseAction (clickLine d rest) = .click d := by
  have hans : (("ANSWER").data).isPrefixOf (clickLine d (rstripPy rest)) = false := rfl
  simp only [parseAction, pstrip_clickLine, hans, Bool.false_eq_true, if_false,
    matchClick_digits d (rstripPy rest) hd hdig]

theorem parseAction_typeLineX (d : List Char) (hd : d ≠ [])
    (hdig : ∀ c ∈ d, c.isDigit = true) :
    parseAction (typeLine d (("x]").data)) = .typeIn d (['x']) := by
  have hans : (("ANSWER").data).isPrefixOf (typeLine d (rstripPy (("x]").data))) = false := rfl
  have hclick : matchClick (typeLine d (rstripPy (("x]").data))) = none := rfl
  have hrs : rstripPy (("x]").data) = ('x') :: [']'] := rfl
  have hmt : matchType (typeLine d (rstripPy (("x]").data))) = some (d, ['x']) := by
    rw [hrs]
    exact matchType_shape d ('x') ([']']) hd hdig (by decide)
  simp only [parseAction, pstrip_typeLine, hans, Bool.false_eq_true, if_false, hclick, hmt]

theorem containsSub_A_free (m s : List Char) (hs : ∀ c ∈ s, c ≠ 'A') :
    containsSub ('A' :: m) s = false := by
  induction s with
  | nil => rfl
  | cons c t ih =>
    have hc : (('A') == c) = false :=
      beq_eq_false_iff_ne.mpr (Ne.symm (hs c (by simp)))
    have hpre : ('A' :: m).isPrefixOf (c :: t) = false := by
      simp [List.isPrefixOf, hc]
    simp [containsSub, hpre, ih (fun x hx => hs x (by simp [hx]))]

theorem digit_ne_A (c : Char) (h : c.isDigit = true) : c ≠ 'A' := by
  intro he
  rw [he] at h
  exact absurd h (by decide)

theorem actionMarker_eq : actionMarker = 'A' :: (("ction:").data) := rfl

theorem extract_id_of_not_contained (l : List Char)
    (h : containsSub actionMarker l = false) : extract_action_line l = l := by
  simp [extract_action_line, h]

theorem no_marker_clickLine (d : List Char) (hdig : ∀ c ∈ d, c.isDigit = true) :
    containsSub actionMarker (clickLine d []) = false := by
  rw [actionMarker_eq]
  apply containsSub_A_free
  intro c hc
  rw [clickLine] at hc
  rcases List.mem_append.mp hc with h1 | h2
  · exact (by decide : ∀ x ∈ ("Click [").data, x ≠ 'A') c h1
  · rcases List.mem_append.mp h2 with h3 | h4
    · exact digit_ne_A c (hdig c h3)
    · have hcr : c = ']' := by simpa using h4
      rw [hcr]; decide

theorem exec_click_oor (br : Browser) (winH len : Nat) (d : List Char) (hd : d ≠ [])
    (hdig : ∀ c ∈ d, c.isDigit = true) (hge : len ≤ digitsVal d) :
    execute_raw_action br winH (("click").data) { id := some d } len
      = (outOfRangeMsg, []) := by
  have hk : (getKey (some d) (("id").data)).bind pyInt = .ok (digitsVal d) := by
    simp [getKey, pyInt_digits d hd hdig, Except.bind]
  simp only [execute_raw_action, beq_self_eq_true, if_true, hk,
    if_neg (Nat.not_lt.mpr hge)]

theorem exec_type_oor (br : Browser) (winH len : Nat) (d content : List Char) (hd : d ≠ [])
    (hdig : ∀ c ∈ d, c.isDigit = true) (hge : len ≤ digitsVal d) :
    execute_raw_action br winH (("type").data) { id := some d, content := some content } len
      = (outOfRangeMsg, []) := by
  have hne : ((("type").data) == (("click").data)) = false := by decide
  have hk : (getKey (some d) (("id").data)).bind pyInt = Except.ok (digitsVal d) := by
    rw [show getKey (some d) (("id").data) = Except.ok d from rfl]
    simpa [Except.bind] using pyInt_digits d hd hdig
  have hk2 : getKey (some content) (("content").data) = Except.ok content := rfl
  simp only [execute_raw_action, hne, Bool.false_eq_true, if_false, beq_self_eq_true,
    if_true, hk, hk2, if_neg (Nat.not_lt.mpr hge)]

/-! ## Claim C7 -/

/-- C7: for every label `N` with `N ≥ len(element_refs)` of the current
Observation (including the empty element list after a capture failure),
executing `Click{N}` — and likewise `Type{N, …}` — yields feedback containing
"out of range", `terminal = False`, and reward 0 for that step, and no
browser click/type operation is attempted. -/
theorem c7_out_of_range_click_type (br : Browser) (winH webElesLen : Nat) (d : List Char)
    (hd : d ≠ []) (hdig : ∀ c ∈ d, c.isDigit = true) (hge : webElesLen ≤ digitsVal d) :
    parse_and_execute br winH webElesLen (clickLine d []) = (outOfRangeMsg, false, [])
    ∧ parse_and_execute br winH webElesLen (typeLine d (("x]").data))
        = (outOfRangeMsg, false, [])
    ∧ containsSub (("out of range").data) outOfRangeMsg = true
    ∧ (stepFn br winH webElesLen (clickLine d [])).1.reward = 0
    ∧ (stepFn br winH webElesLen (clickLine d [])).1.episode_done = false := by
  have hpe1 : parse_and_execute br winH webElesLen (clickLine d [])
      = (outOfRangeMsg, false, []) := by
    simp only [parse_and_execute, parseAction_clickLine d [] hd hdig,
      exec_click_oor br winH webElesLen d hd hdig hge]
  have hpe2 : parse_and_execute br winH webElesLen (typeLine d (("x]").data))
      = (outOfRangeMsg, false, []) := by
    simp only [parse_and_execute, parseAction_typeLineX d hd hdig,
      exec_type_oor br winH webElesLen d (['x']) hd hdig hge]
  have hx : extract_action_line (clickLine d []) = clickLine d [] :=
    extract_id_of_not_contained _ (no_marker_clickLine d hdig)
  have hs : (stepFn br winH webElesLen (clickLine d [])).1
      = { nextEmpty := false, episode_done := false, reward := 0,
          success := 0, format_error := 0 } := by
    simp only [stepFn, hx, hpe1]
    rfl
  refine ⟨hpe1, hpe2, by decide, ?_, ?_⟩
  · rw [hs]
  · rw [hs]

/-- Witness for C7 at label 5 against an empty element list. -/
theorem c7_witness :
    ((0 : Nat) ≤ digitsVal (['5']))
    ∧ (stepFn okBrowser 800 0 (clickLine (['5']) [])).1.reward = 0 :=
  ⟨by decide,
    (c7_out_of_range_click_type okBrowser 800 0 (['5'])
      (by decide) (by decide) (by decide)).2.2.2.1⟩

/-! ## Claim C10 -/

theorem digit_not_space (c : Char) (h : c.isDigit = true) : pyIsSpace c = false := by
  cases hsp : pyIsSpace c with
  | false => rfl
  | true =>
    exfalso
    simp [pyIsSpace] at hsp
    rcases hsp with ((((rfl | rfl) | rfl) | rfl) | rfl) | rfl <;> exact absurd h (by decide)

theorem digit_ne_lbracket (c : Char) (h : c.isDigit = true) : c ≠ ('[') := by
  intro he
  rw [he] at h
  exact absurd h (by decide)

theorem skipLBracket_cons_ne (c : Char) (s : List Char) (h : c ≠ ('[')) :
    skipLBracket (c :: s) = c :: s := by
  unfold skipLBracket
  split
  · next r heq =>
    injection heq with h1 h2
    exact absurd h1 h
  · rfl

theorem rstripPy_prefix_of (l : List Char) : (rstripPy l).IsPrefix l := by
  have hsuf : (l.reverse.dropWhile pyIsSpace).IsSuffix l.reverse :=
    List.dropWhile_suffix _
  have h2 : ((rstripPy l).reverse).IsSuffix l.reverse := by
    unfold rstripPy
    rw [List.reverse_reverse]
    exact hsuf
  exact List.reverse_suffix.mp h2

theorem head?_rstripPy (l : List Char) (c : Char)
    (h : (rstripPy l).head? = some c) : l.head? = some c := by
  obtain ⟨t2, ht⟩ := rstripPy_prefix_of l
  cases hrl : rstripPy l with
  | nil => rw [hrl] at h; cases h
  | cons x xs =>
    rw [hrl] at h ht
    rw [← ht]
    simpa using h

theorem getLast?_click_unbr_core (d : List Char) (hd : d ≠ []) :
    ((("Click ").data) ++ d).getLast? = some (d.getLast hd) := by
  rw [List.getLast?_append, List.getLast?_eq_getLast d hd]
  rfl

theorem pstrip_click_unbr (d rest : List Char) (hd : d ≠ [])
    (hdig : ∀ c ∈ d, c.isDigit = true) :
    pstrip ((("Click ").data) ++ (d ++ rest))
      = (("Click ").data) ++ (d ++ rstripPy rest) := by
  unfold pstrip
  have hl : lstripPy ((("Click ").data) ++ (d ++ rest))
      = (("Click ").data) ++ (d ++ rest) := rfl
  rw [hl]
  rw [show (("Click ").data) ++ (d ++ rest) = ((("Click ").data) ++ d) ++ rest from
    (List.append_assoc _ _ _).symm]
  rw [rstripPy_append _ _ _ (getLast?_click_unbr_core d hd)
    (digit_not_space _ (hdig _ (List.getLast_mem hd)))]
  rw [List.append_assoc]

theorem matchClick_digits_unbr (d rest : List Char) (hd : d ≠ [])
    (hdig : ∀ c ∈ d, c.isDigit = true)
    (hr : ∀ c, rest.head? = some c → c.isDigit = false) :
    matchClick ((("Click ").data) ++ (d ++ rest)) = some d := by
  obtain ⟨c0, d0, rfl⟩ : ∃ c0 d0, d = c0 :: d0 := by
    cases d with
    | nil => exact absurd rfl hd
    | cons a b => exact ⟨a, b, rfl⟩
  have h1 : dropCILit (("click ").data) ((("Click ").data) ++ ((c0 :: d0) ++ rest))
      = some ((c0 :: d0) ++ rest) := rfl
  have h2 : skipLBracket ((c0 :: d0) ++ rest) = (c0 :: d0) ++ rest :=
    skipLBracket_cons_ne c0 (d0 ++ rest)
      (digit_ne_lbracket c0 (hdig c0 (by simp)))
  have h3 : ((c0 :: d0) ++ rest).takeWhile Char.isDigit = c0 :: d0 :=
    takeWhile_append_not _ _ _ hdig hr
  simp only [matchClick, h1, h2, h3]

theorem parseAction_click_unbr (d rest : List Char) (hd : d ≠ [])
    (hdig : ∀ c ∈ d, c.isDigit = true)
    (hr : ∀ c, rest.head? = some c → c.isDigit = false) :
    parseAction ((("Click ").data) ++ (d ++ rest)) = .click d := by
  have hr2 : ∀ c, (rstripPy rest).head? = some c → c.isDigit = false :=
    fun c hc => hr c (head?_rstripPy rest c hc)
  have hans : (("ANSWER").data).isPrefixOf ((("Click ").data) ++ (d ++ rstripPy rest))
      = false := rfl
  simp only [parseAction, pstrip_click_unbr d rest hd hdig, hans, Bool.false_eq_true,
    if_false, matchClick_digits_unbr d (rstripPy rest) hd hdig hr2]

theorem rstripPy_bracket_closed (u rest : List Char) :
    rstripPy ((u ++ ([']'])) ++ rest) = (u ++ ([']'])) ++ rstripPy rest :=
  rstripPy_append _ _ _ (List.getLast?_concat u) (by decide)

theorem parseAction_typeLine_closed (d rest : List Char) (h : Char) (t : List Char)
    (hd : d ≠ []) (hdig : ∀ c ∈ d, c.isDigit = true) (hn : h ≠ '\n')
    (hnb : ∀ c ∈ t, (c == (']')) = false) :
    parseAction (typeLine d ((h :: t) ++ (']' :: rest))) = .typeIn d (h :: t) := by
  have hsplit : (h :: t) ++ (']' :: rest) = ((h :: t) ++ ([']'])) ++ rest := by
    simp
  have hstrip : pstrip (typeLine d ((h :: t) ++ (']' :: rest)))
      = typeLine d ((h :: t) ++ (']' :: rstripPy rest)) := by
    rw [pstrip_typeLine, hsplit, rstripPy_bracket_closed]
    simp
  have hans : (("ANSWER").data).isPrefixOf
      (typeLine d ((h :: t) ++ (']' :: rstripPy rest))) = false := rfl
  have hclick : matchClick (typeLine d ((h :: t) ++ (']' :: rstripPy rest))) = none := rfl
  have htw : (t ++ (']' :: rstripPy rest)).takeWhile (fun x => !(x == ']')) = t :=
    takeWhile_append_not _ _ _
      (fun c hc => by rw [hnb c hc]; rfl)
      (fun c hc => by cases hc; rfl)
  have hmt : matchType (typeLine d ((h :: t) ++ (']' :: rstripPy rest)))
      = some (d, h :: t) := by
    have := matchType_shape d h (t ++ (']' :: rstripPy rest)) hd hdig hn
    rw [htw] at this
    simpa using this
  simp only [parseAction, hstrip, hans, Bool.false_eq_true, if_false, hclick, hmt]

theorem getLast?_scrollLine_core (d : List Char) :
    (((("Scroll [").data) ++ d) ++ (("]; [up]").data)).getLast? = some (']') := by
  have hs : (("]; [up]").data) = ((("]; [up").data) ++ ([']'])) := rfl
  rw [hs, ← List.append_assoc, List.getLast?_concat]

theorem scrollLine_assoc (d rest : List Char) :
    scrollLine d rest = ((((("Scroll [").data) ++ d) ++ (("]; [up]").data)) ++ rest) := by
  simp [scrollLine]

theorem pstrip_scrollLine (d rest : List Char) :
    pstrip (scrollLine d rest) = scrollLine d (rstripPy rest) := by
  unfold pstrip
  have hl : lstripPy (scrollLine d rest) = scrollLine d rest := rfl
  rw [hl, scrollLine_assoc,
    rstripPy_append _ _ _ (getLast?_scrollLine_core d) (by decide),
    ← scrollLine_assoc]

theorem matchScroll_up (d rest : List Char) (hd : d ≠ [])
    (hdig : ∀ c ∈ d, c.isDigit = true) :
    matchScroll (scrollLine d rest) = some (d, ("up").data) := by
  obtain ⟨c0, d0, rfl⟩ : ∃ c0 d0, d = c0 :: d0 := by
    cases d with
    | nil => exact absurd rfl hd
    | cons a b => exact ⟨a, b, rfl⟩
  have hnd : ∀ c, (((("]; [up]").data) ++ rest)).head? = some c → c.isDigit = false := by
    intro c hc
    cases hc
    decide
  have h1 : dropCILit (("scroll ").data) (scrollLine (c0 :: d0) rest)
      = some ('[' :: ((c0 :: d0) ++ ((("]; [up]").data) ++ rest))) := rfl
  have h2 : skipLBracket ('[' :: ((c0 :: d0) ++ ((("]; [up]").data) ++ rest)))
      = (c0 :: d0) ++ ((("]; [up]").data) ++ rest) := rfl
  have h3 : ((c0 :: d0) ++ ((("]; [up]").data) ++ rest)).takeWhile Char.isDigit
      = c0 :: d0 :=
    takeWhile_append_not _ _ _ hdig hnd
  have h4 : ((c0 :: d0) ++ ((("]; [up]").data) ++ rest)).dropWhile Char.isDigit
      = (("]; [up]").data) ++ rest :=
    dropWhile_append_not _ _ _ hdig hnd
  have h5 : skipRBracket ((("]; [up]").data) ++ rest) = (("; [up]").data) ++ rest := rfl
  have h6 : ((("; [up]").data) ++ rest).takeWhile isSepChar = [';', ' '] := rfl
  have h7 : ((("; [up]").data) ++ rest).dropWhile isSepChar = (("[up]").data) ++ rest := rfl
  have h8 : skipLBracket ((("[up]").data) ++ rest) = (("up]").data) ++ rest := rfl
  have h9 : takeCILit (("up").data) ((("up]").data) ++ rest)
      = some ((("up").data), ']' :: rest) := rfl
  simp only [matchScroll, h1, h2, h3, h4, h5, h6, h7, h8, h9]

theorem parseAction_scrollLine (d rest : List Char) (hd : d ≠ [])
    (hdig : ∀ c ∈ d, c.isDigit = true) :
    parseAction (scrollLine d rest) = .scroll d (("up").data) := by
  have hans : (("ANSWER").data).isPrefixOf (scrollLine d (rstripPy rest)) = false := rfl
  have hclick : matchClick (scrollLine d (rstripPy rest)) = none := rfl
  have htype : matchType (scrollLine d (rstripPy rest)) = none := rfl
  simp only [parseAction, pstrip_scrollLine, hans, Bool.false_eq_true, if_false,
    hclick, htype, matchScroll_up d (rstripPy rest) hd hdig]

/-- C10: for every action line beginning with a well-formed Click, Type or
Scroll command, trailing text after the matched command is silently ignored
rather than producing InvalidFormat, because the command patterns are
anchored only at the start of the line: `Click [d]<rest>` (and unbracketed
`Click d<rest>` when the trailing text does not start with a digit that would
extend the label), `Type [d]; [content]<rest>` and `Scroll [d]; [up]<rest>`
all parse to the same action as the command without the trailing text, and
execute identically to it. -/
theorem c10_trailing_text_ignored (br : Browser) (winH webElesLen : Nat)
    (d rest : List Char) (h : Char) (t : List Char)
    (hd : d ≠ []) (hdig : ∀ c ∈ d, c.isDigit = true) :
    (parseAction (clickLine d rest) = .click d
      ∧ parse_and_execute br winH webElesLen (clickLine d rest)
        = parse_and_execute br winH webElesLen (clickLine d []))
    ∧ ((∀ c, rest.head? = some c → c.isDigit = false) →
      parseAction ((("Click ").data) ++ (d ++ rest)) = .click d
      ∧ parse_and_execute br winH webElesLen ((("Click ").data) ++ (d ++ rest))
        = parse_and_execute br winH webElesLen ((("Click ").data) ++ d))
    ∧ (h ≠ '\n' → (∀ c ∈ t, (c == (']')) = false) →
      parseAction (typeLine d ((h :: t) ++ (']' :: rest))) = .typeIn d (h :: t)
      ∧ parse_and_execute br winH webElesLen (typeLine d ((h :: t) ++ (']' :: rest)))
        = parse_and_execute br winH webElesLen (typeLine d ((h :: t) ++ (']' :: []))))
    ∧ (parseAction (scrollLine d rest) = .scroll d (("up").data)
      ∧ parse_and_execute br winH webElesLen (scrollLine d rest)
        = parse_and_execute br winH webElesLen (scrollLine d [])) := by
  refine ⟨⟨parseAction_clickLine d rest hd hdig, ?_⟩, fun hr => ⟨?_, ?_⟩,
    fun hn hnb => ⟨?_, ?_⟩, ⟨parseAction_scrollLine d rest hd hdig, ?_⟩⟩
  · simp only [parse_and_execute, parseAction_clickLine d rest hd hdig,
      parseAction_clickLine d [] hd hdig]
  · exact parseAction_click_unbr d rest hd hdig hr
  · have hnil : parseAction ((("Click ").data) ++ d) = .click d := by
      have := parseAction_click_unbr d [] hd hdig (fun c hc => by cases hc)
      rw [List.append_nil] at this
      exact this
    simp only [parse_and_execute, parseAction_click_unbr d rest hd hdig hr, hnil]
  · exact parseAction_typeLine_closed d rest h t hd hdig hn hnb
  · simp only [parse_and_execute, parseAction_typeLine_closed d rest h t hd hdig hn hnb,
      parseAction_typeLine_closed d [] h t hd hdig hn hnb]
  · simp only [parse_and_execute, parseAction_scrollLine d rest hd hdig,
      parseAction_scrollLine d [] hd hdig]

/-- Witness for C10 exercising all four shapes with the trailing text
`" on the search button"`, label 3 and Type content `"abc"`. -/
theorem c10_witness :
    (parseAction (clickLine (['3']) ((" on the search button").data)) = .click (['3'])
      ∧ parse_and_execute okBrowser 800 5 (clickLine (['3']) ((" on the search button").data))
        = parse_and_execute okBrowser 800 5 (clickLine (['3']) []))
    ∧ (parseAction ((("Click ").data) ++ ((['3']) ++ ((" on the search button").data)))
        = .click (['3']))
    ∧ (parseAction (typeLine (['3'])
        ((('a') :: (("bc").data)) ++ (']' :: ((" on the search button").data))))
        = .typeIn (['3']) (('a') :: (("bc").data)))
    ∧ (parseAction (scrollLine (['3']) ((" on the search button").data))
        = .scroll (['3']) (("up").data)) := by
  have T := c10_trailing_text_ignored okBrowser 800 5 (['3'])
    ((" on the search button").data) ('a') (("bc").data) (by decide) (by decide)
  exact ⟨T.1, (T.2.1 (by decide)).1, (T.2.2.1 (by decide) (by decide)).1, T.2.2.2.1⟩

/-! ## Claim C4 -/

/-- C4 counterexample: on the ANSWER transition `step` returns
`episode_done = True` with the empty next-input sentinel, but no `close` (or
any other) driver operation is performed — the browser Session is NOT
released by this transition, contradicting the release conjunct of the
claim.  (The only `WebController.close` call in the repository is made
externally by the caller `run.py`, in its `finally class` block, not by
`step`.) -/
theorem c4_counterexample :
    (stepFn okBrowser 800 5 (("Action: ANSWER; X is the capital").data)).1.episode_done = true
    ∧ (stepFn okBrowser 800 5 (("Action: ANSWER; X is the capital").data)).1.nextEmpty = true
    ∧ (stepFn okBrowser 800 5 (("Action: ANSWER; X is the capital").data)).2 = []
    ∧ BrowserOp.close ∉ (stepFn okBrowser 800 5 (("Action: ANSWER; X is the capital").data)).2 := by
  decide

/-- C4 (amended): when the executed action line is an ANSWER action, `step`
returns a StepResult with `episode_done = True` and the empty terminal
next-input sentinel, but the browser Session is not released or closed by
`step`: the terminal transition performs no driver operation at all. -/
theorem c4_answer_terminal (br : Browser) (winH webElesLen : Nat) (content t : List Char)
    (hp : parseAction (extract_action_line content) = PAction.answer t) :
    (stepFn br winH webElesLen content).1.episode_done = true
    ∧ (stepFn br winH webElesLen content).1.nextEmpty = true
    ∧ (stepFn br winH webElesLen content).2 = [] := by
  have hpe : parse_and_execute br winH webElesLen (extract_action_line content)
      = ((("Answered: ").data) ++ t, true, []) := by
    simp only [parse_and_execute, hp]
  refine ⟨?_, ?_, ?_⟩ <;> (simp only [stepFn, hpe]; try rfl)

/-- Witness for C4 on End-to-end scenario 2. -/
theorem c4_witness :
    (stepFn okBrowser 800 5 (("Action: ANSWER; X is the capital").data)).1.episode_done = true
    ∧ (stepFn okBrowser 800 5 (("Action: ANSWER; X is the capital").data)).1.nextEmpty = true
    ∧ (stepFn okBrowser 800 5 (("Action: ANSWER; X is the capital").data)).2 = [] :=
  c4_answer_terminal okBrowser 800 5 (("Action: ANSWER; X is the capital").data)
    (("ANSWER; X is the capital").data) (by decide)

/-! ## Claim C5 -/

/-- C5 counterexample: the lowercase line `answer; X is the capital` does NOT
parse to the terminal Answer action — the `startswith("ANSWER")` check is
case-sensitive, so the line falls through every check and is InvalidFormat. -/
theorem c5_counterexample :
    parseAction (("answer; X is the capital").data) = PAction.invalid
    ∧ PAction.invalid ≠ PAction.answer (pstrip (("answer; X is the capital").data)) := by
  decide

/-- C5 (amended): the regex productions Click/Type/Scroll are matched
case-insensitively and brackets around the numeric argument are optional
(`Click [3]`, `click 3`, `Click 3` all parse to the identical `Click{3}`),
but the ANSWER prefix check and the Wait/GoBack/Google substring checks are
case-sensitive: lowercase `answer; …` (and `wait`, `goback`, `google`) parse
to InvalidFormat, not to their actions. -/
theorem c5_case_sensitivity :
    parseAction (("Click [3]").data) = PAction.click (['3'])
    ∧ parseAction (("click 3").data) = PAction.click (['3'])
    ∧ parseAction (("Click 3").data) = PAction.click (['3'])
    ∧ parseAction (("TYPE [2]; [hi]").data) = PAction.typeIn (['2']) (("hi").data)
    ∧ parseAction (("type [2]; [hi]").data) = PAction.typeIn (['2']) (("hi").data)
    ∧ parseAction (("SCROLL [3]; [up]").data) = PAction.scroll (['3']) (("up").data)
    ∧ parseAction (("ANSWER; X").data) = PAction.answer (("ANSWER; X").data)
    ∧ parseAction (("answer; X").data) = PAction.invalid
    ∧ parseAction (("wait").data) = PAction.invalid
    ∧ parseAction (("goback").data) = PAction.invalid
    ∧ parseAction (("google").data) = PAction.invalid := by
  decide

/-! ## Claim C3 -/

/-- C3 counterexample: on the claim's own example `Type [4]; [a]b]` the
parsed content is `a` — it stops at the first `]` and does not contain the
inner brackets, so the content is NOT the entire remainder of the argument. -/
theorem c3_counterexample :
    parseAction (("Type [4]; [a]b]").data) = PAction.typeIn (['4']) (['a'])
    ∧ (']') ∉ (['a'] : List Char) := by
  decide

/-- C3 (amended): for an action line `Type [d]; [h…t`, the parsed content is
the first character `h` after the opening bracket followed by the maximal run
of non-`]` characters of `t`: the match is truncated at the first `]` after
the content's first character (and is the entire remainder only when the
remainder contains no `]`), not matched greedily to the end of the argument. -/
theorem c3_type_content_truncated (d : List Char) (h : Char) (t : List Char)
    (hd : d ≠ []) (hdig : ∀ c ∈ d, c.isDigit = true) (hn : h ≠ '\n') :
    matchType (typeLine d (h :: t))
      = some (d, h :: t.takeWhile (fun x => !(x == ']'))) :=
  matchType_shape d h t hd hdig hn

/-- Witness for C3 at the counterexample input `Type [4]; [a]b]`. -/
theorem c3_witness :
    matchType (typeLine (['4']) (("a]b]").data)) = some ((['4']), (['a'])) := by
  have h := c3_type_content_truncated (['4']) ('a') (("]b]").data)
    (by decide) (by decide) (by decide)
  exact h.trans (by decide)

/-! ## Claim C6 -/

theorem contains_answered (t : List Char) :
    containsSub (("Answered").data) ((("Answered: ").data) ++ t) = true := rfl

theorem pe_done_iff (br : Browser) (winH len : Nat) (line : List Char) :
    (parse_and_execute br winH len line).2.1 = true
      ↔ ∃ t, parseAction line = PAction.answer t := by
  cases hp : parseAction line <;> simp [parse_and_execute, hp]

/-- C6 counterexample: a perfectly well-formed, successfully executed Type
action whose typed content happens to contain the words of the format-error
feedback is rewarded −1, because the reward is computed by a substring check
on the feedback text (`"Invalid Action Format" in feedback`) and the Type
feedback echoes the typed content.  So reward −1 is not reserved to
InvalidFormat steps, and a non-terminal well-formed step can get a nonzero
reward. -/
theorem c6_counterexample :
    parseAction (extract_action_line (("Type [0]; Invalid Action Format").data))
      = PAction.typeIn (['0']) (("Invalid Action Format").data)
    ∧ (stepFn okBrowser 800 1 (("Type [0]; Invalid Action Format").data)).1.episode_done = false
    ∧ (stepFn okBrowser 800 1 (("Type [0]; Invalid Action Format").data)).1.reward = -1 := by
  decide

/-- C6 (amended): the reward is computed from the feedback text: 1 when the
step is terminal (the feedback then contains "Answered"), −1 whenever the
feedback contains the substring "Invalid Action Format" — which is the case
for every InvalidFormat step, but also for feedback that merely echoes such
text — and 0 for every other non-terminal step; the metrics are exactly
`success = 1 if reward > 0 else 0` and `format_error = 1 if reward < 0 else
0`. -/
theorem c6_reward_rule (br : Browser) (winH webElesLen : Nat) (content : List Char) :
    ((parse_and_execute br winH webElesLen (extract_action_line content)).2.1 = true →
      (stepFn br winH webElesLen content).1.reward = 1)
    ∧ (parseAction (extract_action_line content) = PAction.invalid →
      (stepFn br winH webElesLen content).1.reward = -1)
    ∧ ((parse_and_execute br winH webElesLen (extract_action_line content)).2.1 = false →
      containsSub (("Invalid Action Format").data)
        (parse_and_execute br winH webElesLen (extract_action_line content)).1 = false →
      (stepFn br winH webElesLen content).1.reward = 0)
    ∧ ((stepFn br winH webElesLen content).1.success
        = if 0 < (stepFn br winH webElesLen content).1.reward then 1 else 0)
    ∧ ((stepFn br winH webElesLen content).1.format_error
        = if (stepFn br winH webElesLen content).1.reward < 0 then 1 else 0) := by
  have hstep : (stepFn br winH webElesLen content).1.reward
      = (if (parse_and_execute br winH webElesLen (extract_action_line content)).2.1
            && containsSub (("Answered").data)
              (parse_and_execute br winH webElesLen (extract_action_line content)).1
         then (1 : Int)
         else if containsSub (("Invalid Action Format").data)
              (parse_and_execute br winH webElesLen (extract_action_line content)).1
         then -1 else 0) := rfl
  refine ⟨?_, ?_, ?_, rfl, rfl⟩
  · intro hdone
    obtain ⟨t, hp⟩ := (pe_done_iff br winH webElesLen (extract_action_line content)).mp hdone
    have hpe : parse_and_execute br winH webElesLen (extract_action_line content)
        = ((("Answered: ").data) ++ t, true, []) := by
      simp only [parse_and_execute, hp]
    have hbranch : (stepFn br winH webElesLen content).1.reward
        = (if (true && containsSub (("Answered").data) ((("Answered: ").data) ++ t)) = true
           then (1 : Int)
           else if containsSub (("Invalid Action Format").data)
              ((("Answered: ").data) ++ t) = true then -1 else 0) := by
      rw [hstep, hpe]
    rw [hbranch, contains_answered t]
    simp
  · intro hp
    have hpe : parse_and_execute br winH webElesLen (extract_action_line content)
        = (invalidFormatMsg, false, []) := by
      simp only [parse_and_execute, hp]
    have hbranch : (stepFn br winH webElesLen content).1.reward
        = (if (false && containsSub (("Answered").data) invalidFormatMsg) = true
           then (1 : Int)
           else if containsSub (("Invalid Action Format").data) invalidFormatMsg = true
           then -1 else 0) := by
      rw [hstep, hpe]
    rw [hbranch]
    decide
  · intro h1 h2
    rw [hstep, h1, h2]
    simp

/-- Witness for C6 on End-to-end scenario 3 (`Frobnicate [9]`). -/
theorem c6_witness :
    (stepFn okBrowser 800 0 (("Frobnicate [9]").data)).1.reward = -1 :=
  (c6_reward_rule okBrowser 800 0 (("Frobnicate [9]").data)).2.1 (by decide)

/-! ## Claim C8 -/

theorem runOps_ok_all (br : Browser) :
    ∀ (l ps : List BrowserOp), runOps br l = (none, ps) →
      ∀ op ∈ ps, br.run op = Except.ok () := by
  intro l
  induction l with
  | nil =>
    intro ps h op hop
    have hps : ([] : List BrowserOp) = ps := by simpa [runOps] using congrArg Prod.snd h
    rw [← hps] at hop
    cases hop
  | cons a rest ih =>
    intro ps h op hop
    cases hr : br.run a with
    | error e =>
      rw [show runOps br (a :: rest) = (some e, [a]) from by simp [runOps, hr]] at h
      exact absurd (congrArg Prod.fst h) (by simp)
    | ok u =>
      have hrw : runOps br (a :: rest) = ((runOps br rest).1, a :: (runOps br rest).2) := by
        simp [runOps, hr]
      rw [hrw] at h
      have h1 : (runOps br rest).1 = none := congrArg Prod.fst h
      have h2 : a :: (runOps br rest).2 = ps := congrArg Prod.snd h
      rw [← h2] at hop
      rcases List.mem_cons.mp hop with rfl | hmem
      · cases u
        exact hr
      · exact ih (runOps br rest).2 (by rw [← h1]) op hmem

theorem tryOps_fail (br : Browser) (ops : List BrowserOp) (success : List Char)
    (h : ∃ op ∈ (tryOps br ops success).2, ∃ e, br.run op = Except.error e) :
    ∃ e, (tryOps br ops success).1 = actionFailedPre ++ e := by
  rcases hr : runOps br ops with ⟨fst, snd⟩
  cases fst with
  | none =>
    obtain ⟨op, hop, e, he⟩ := h
    rw [show (tryOps br ops success).2 = snd from by simp [tryOps, hr]] at hop
    have hok := runOps_ok_all br ops snd hr op hop
    rw [hok] at he
    cases he
  | some e => exact ⟨e, by simp [tryOps, actionFailedPre, hr]⟩

theorem exec_fail_feedback (br : Browser) (winH : Nat) (ty : List Char) (args : RawArgs)
    (len : Nat)
    (h : ∃ op ∈ (execute_raw_action br winH ty args len).2, ∃ e, br.run op = Except.error e) :
    (∃ e, (execute_raw_action br winH ty args len).1 = actionFailedPre ++ e)
    ∨ (execute_raw_action br winH ty args len).1 = ("Navigated to Google.").data := by
  revert h
  unfold execute_raw_action
  repeat' split
  all_goals intro h
  all_goals
    first
    | exact Or.inl (tryOps_fail br _ _ h)
    | exact Or.inr rfl
    | (obtain ⟨op, hop, e, he⟩ := h; simp at hop)

/-- C8 counterexample: a driver exception raised inside the `google` branch is
absorbed by `WebController.navigate`'s internal `try/except` and converted to
the ordinary success feedback `"Navigated to Google."`, NOT to a feedback
string beginning `"Action Failed: "`, so not every caught driver failure is
surfaced as "Action Failed" feedback. -/
theorem c8_counterexample :
    execute_raw_action boomBrowser 800 (("google").data) {} 0
      = ((("Navigated to Google.").data), [BrowserOp.navGet (("https://www.google.com").data)])
    ∧ boomBrowser.run (BrowserOp.navGet (("https://www.google.com").data))
        = Except.error (("boom").data)
    ∧ actionFailedPre.isPrefixOf (("Navigated to Google.").data) = false :=
  ⟨by decide, rfl, by decide⟩

/-- C8 (amended): `execute_raw_action` never propagates a driver exception to
its caller: whenever any attempted driver operation of the executed action
raises, the step stays non-terminal and the feedback is either the exception
converted to a string beginning `"Action Failed: "` or — only for the
`google` branch, whose navigation absorbs exceptions internally — the fixed
string `"Navigated to Google."`; no failing action aborts the episode. -/
theorem c8_failures_absorbed (br : Browser) (winH webElesLen : Nat) (line : List Char)
    (h : ∃ op ∈ (parse_and_execute br winH webElesLen line).2.2, ∃ e,
      br.run op = Except.error e) :
    (parse_and_execute br winH webElesLen line).2.1 = false
    ∧ ((∃ e, (parse_and_execute br winH webElesLen line).1 = actionFailedPre ++ e)
        ∨ (parse_and_execute br winH webElesLen line).1 = ("Navigated to Google.").data) := by
  cases hp : parseAction line with
  | answer t =>
    rw [show parse_and_execute br winH webElesLen line
        = ((("Answered: ").data) ++ t, true, []) from by simp only [parse_and_execute, hp]] at h
    obtain ⟨op, hop, _⟩ := h
    simp at hop
  | invalid =>
    rw [show parse_and_execute br winH webElesLen line
        = (invalidFormatMsg, false, []) from by simp only [parse_and_execute, hp]] at h
    obtain ⟨op, hop, _⟩ := h
    simp at hop
  | click id =>
    have hpe : parse_and_execute br winH webElesLen line
        = ((execute_raw_action br winH (("click").data) { id := some id } webElesLen).1, false,
           (execute_raw_action br winH (("click").data) { id := some id } webElesLen).2) := by
      simp only [parse_and_execute, hp]
    rw [hpe] at h ⊢
    exact ⟨rfl, exec_fail_feedback br winH _ _ _ h⟩
  | typeIn id content =>
    have hpe : parse_and_execute br winH webElesLen line
        = ((execute_raw_action br winH (("type").data)
              { id := some id, content := some content } webElesLen).1, false,
           (execute_raw_action br winH (("type").data)
              { id := some id, content := some content } webElesLen).2) := by
      simp only [parse_and_execute, hp]
    rw [hpe] at h ⊢
    exact ⟨rfl, exec_fail_feedback br winH _ _ _ h⟩
  | scroll tg dir =>
    have hpe : parse_and_execute br winH webElesLen line
        = ((execute_raw_action br winH (("scroll").data)
              { target := some tg, direction := some dir } webElesLen).1, false,
           (execute_raw_action br winH (("scroll").data)
              { target := some tg, direction := some dir } webElesLen).2) := by
      simp only [parse_and_execute, hp]
    rw [hpe] at h ⊢
    exact ⟨rfl, exec_fail_feedback br winH _ _ _ h⟩
  | wait =>
    have hpe : parse_and_execute br winH webElesLen line
        = ((execute_raw_action br winH (("wait").data) {} webElesLen).1, false,
           (execute_raw_action br winH (("wait").data) {} webElesLen).2) := by
      simp only [parse_and_execute, hp]
    rw [hpe] at h ⊢
    exact ⟨rfl, exec_fail_feedback br winH _ _ _ h⟩
  | goback =>
    have hpe : parse_and_execute br winH webElesLen line
        = ((execute_raw_action br winH (("goback").data) {} webElesLen).1, false,
           (execute_raw_action br winH (("goback").data) {} webElesLen).2) := by
      simp only [parse_and_execute, hp]
    rw [hpe] at h ⊢
    exact ⟨rfl, exec_fail_feedback br winH _ _ _ h⟩
  | google =>
    have hpe : parse_and_execute br winH webElesLen line
        = ((execute_raw_action br winH (("google").data) {} webElesLen).1, false,
           (execute_raw_action br winH (("google").data) {} webElesLen).2) := by
      simp only [parse_and_execute, hp]
    rw [hpe] at h ⊢
    exact ⟨rfl, exec_fail_feedback br winH _ _ _ h⟩

/-- Witness for C8: a click on a valid label whose driver call raises. -/
theorem c8_witness :
    (parse_and_execute boomBrowser 800 1 (("Click [0]").data)).2.1 = false
    ∧ ((∃ e, (parse_and_execute boomBrowser 800 1 (("Click [0]").data)).1
          = actionFailedPre ++ e)
        ∨ (parse_and_execute boomBrowser 800 1 (("Click [0]").data)).1
          = ("Navigated to Google.").data) :=
  c8_failures_absorbed boomBrowser 800 1 (("Click [0]").data)
    ⟨BrowserOp.setSelfTarget 0, by decide, (("boom").data), rfl⟩

/-! ## Claim C9 -/

/-- C9 counterexample: when the URL changes on every read, the polling loop of
`_wait_for_stable_url` is NOT bounded by the timeout fixed at entry: with
`timeout = 10` ticks the loop is still running after 100 iterations, because
every URL change resets `end_time` to `time.time() + timeout`. -/
theorem c9_counterexample :
    wait_for_stable_url everChangingReads (("b").data) 10 100 = none
    ∧ (10 : Nat) < 100 := by
  decide

/-- C9 (amended): the wait terminates within the timeout bound only relative
to the last URL change: when the observed URL stops changing (here: a
constant URL stream), the loop exits after at most 3 iterations — two
consecutive identical reads — well within any timeout of at least 2 ticks;
but each URL change resets the deadline, so the iteration bound is counted
from the last change, not fixed at entry. -/
theorem c9_stable_url_terminates (u init : List Char) (timeout fuel : Nat)
    (ht : 2 ≤ timeout) (hf : 3 ≤ fuel) :
    ∃ k, k ≤ 3 ∧ wait_for_stable_url (fun _ => u) init timeout fuel = some k := by
  obtain ⟨f, rfl⟩ : ∃ f, fuel = f + 3 := by
    obtain ⟨f, hf2⟩ := Nat.exists_eq_add_of_le hf
    exact ⟨f, by omega⟩
  have h0 : 0 < timeout := by omega
  by_cases hu : u = init
  · refine ⟨2, by omega, ?_⟩
    subst hu
    have h1 : 1 < timeout := by omega
    show wfsuLoop (fun _ => u) timeout (f + 3) 0 ⟨0, timeout, u, 0⟩ = some 2
    simp [wfsuLoop, h0, h1]
  · refine ⟨3, by omega, ?_⟩
    have hbe : (u == init) = false := beq_eq_false_iff_ne.mpr hu
    have ha : 1 < 1 + timeout := by omega
    have hb : 2 < 1 + timeout := by omega
    show wfsuLoop (fun _ => u) timeout (f + 3) 0 ⟨0, timeout, init, 0⟩ = some 3
    simp [wfsuLoop, h0, ha, hb, hbe]

/-- Witness for C9 with a URL that differs from the pre-loop read and then
stays constant. -/
theorem c9_witness :
    ∃ k, k ≤ 3 ∧ wait_for_stable_url (fun _ => ("u").data) (("v").data) 10 5 = some k :=
  c9_stable_url_terminates (("u").data) (("v").data) 10 5 (by decide) (by decide)

/-! ## Claim C1 -/

theorem filterMap_entry_fst_sublist (l : List (Nat × RawItem)) :
    List.Sublist
      ((l.filterMap fun p =>
        if hasTextEntry p.2 then some (p.1, entryText p.1 p.2) else none).map Prod.fst)
      (l.map Prod.fst) := by
  induction l with
  | nil => simp
  | cons a t ih =>
    cases h : hasTextEntry a.2 with
    | true =>
      simp only [List.filterMap_cons, h, if_true, List.map_cons]
      exact List.Sublist.cons₂ a.1 ih
    | false =>
      simp only [List.filterMap_cons, h, Bool.false_eq_true, if_false, List.map_cons]
      exact List.Sublist.cons a.1 ih

/-- C1 counterexample: a page whose single raw element is an `<a>` anchor with
empty text content: `get_web_element_rect` returns one element reference but
renders NO text entry for it, so the label set in the text is empty and does
not equal `range(len(element_refs)) = [0]` — the labels appearing in the text
are not dense over the reference list. -/
theorem c1_counterexample :
    textLabels [{ text := [], tagName := ("a").data, typeAttr := none, ariaLabel := none }] = []
    ∧ List.range (web_ele_refs
        [{ text := [], tagName := ("a").data, typeAttr := none, ariaLabel := none }]).length
      = [0]
    ∧ ([] : List Nat) ≠ [0] := by
  decide

/-- C1 (amended): the labels appearing in the rendered element text form a
subsequence of `range(len(element_refs))` — 0-indexed, strictly increasing
and in range, but not necessarily dense, since elements without a renderable
description are skipped — and every rendered entry for label `i` is exactly
the text derived from element-reference index `i`. -/
theorem c1_labels_subsequence (items : List RawItem) :
    List.Sublist (textLabels items) (List.range (web_ele_refs items).length)
    ∧ ∀ p ∈ formatEntryPairs items,
        ∃ h : p.1 < items.length, p.2 = entryText p.1 (items.get ⟨p.1, h⟩) := by
  constructor
  · have h1 := filterMap_entry_fst_sublist items.enum
    rw [List.enum_map_fst] at h1
    simpa [textLabels, formatEntryPairs, web_ele_refs] using h1
  · intro p hp
    rw [formatEntryPairs] at hp
    obtain ⟨q, hq, hfq⟩ := List.mem_filterMap.mp hp
    have hget : items[q.1]? = some q.2 := List.mem_enum_iff_getElem?.mp hq
    have hlt : q.1 < items.length := by
      by_contra hn
      rw [List.getElem?_eq_none (by omega)] at hget
      cases hget
    have hv : items.get ⟨q.1, hlt⟩ = q.2 := by
      rw [List.getElem?_eq_getElem hlt] at hget
      exact Option.some.inj hget
    cases hc : hasTextEntry q.2 with
    | false =>
      rw [hc] at hfq
      simp at hfq
    | true =>
      rw [hc] at hfq
      simp only [if_true] at hfq
      have hpq : p = (q.1, entryText q.1 q.2) := (Option.some.inj hfq).symm
      subst hpq
      exact ⟨hlt, by rw [hv]⟩

/-! ## Claim C2 -/

theorem isPrefixOf_self_append (n m : List Char) : n.isPrefixOf (n ++ m) = true := by
  rw [List.isPrefixOf_iff_prefix]
  exact List.prefix_append n m

theorem containsSub_self_append (c : Char) (m s pre : List Char) :
    containsSub (c :: m) (pre ++ ((c :: m) ++ s)) = true := by
  induction pre with
  | nil =>
    show containsSub (c :: m) (c :: (m ++ s)) = true
    have h1 : (c :: m).isPrefixOf ((c :: m) ++ s) = true := isPrefixOf_self_append _ _
    simp only [containsSub]
    rw [show (c :: (m ++ s)) = (c :: m) ++ s from rfl, h1]
    simp
  | cons a pre ih =>
    show containsSub (c :: m) (a :: (pre ++ ((c :: m) ++ s))) = true
    simp only [containsSub, ih, Bool.or_true]

theorem splitGoF_skip (sep : List Char) (fuel : Nat) (c : Char) (s acc : List Char)
    (h : sep.isPrefixOf (c :: s) = false) :
    splitGoF sep (fuel + 1) (c :: s) acc = splitGoF sep fuel s (c :: acc) := by
  simp [splitGoF, h]

theorem splitGoF_boundary (c : Char) (ms rest acc : List Char) (fuel : Nat) :
    splitGoF (c :: ms) (fuel + 1) ((c :: ms) ++ rest) acc
      = acc.reverse :: splitGoF (c :: ms) fuel rest [] := by
  have hpre : (c :: ms).isPrefixOf (c :: (ms ++ rest)) = true := isPrefixOf_self_append _ _
  show splitGoF (c :: ms) (fuel + 1) (c :: (ms ++ rest)) acc = _
  simp [splitGoF, hpre, List.drop_left]

theorem splitGoF_fuel (sep : List Char) :
    ∀ (fuel fuel' : Nat) (s acc : List Char), s.length < fuel → s.length < fuel' →
      splitGoF sep fuel s acc = splitGoF sep fuel' s acc := by
  intro fuel
  induction fuel with
  | zero =>
    intro fuel' s acc h
    omega
  | succ n ih =>
    intro fuel' s acc h h'
    cases fuel' with
    | zero => omega
    | succ n' =>
      cases s with
      | nil => rfl
      | cons c t =>
        simp only [splitGoF]
        have hlt : t.length < n := by simpa using h
        have hlt' : t.length < n' := by simpa using h'
        by_cases hp : sep.isPrefixOf (c :: t) = true
        · simp only [hp, if_true]
          have hd : (List.drop (sep.length - 1) t).length ≤ t.length := by
            simp [List.length_drop]
          rw [ih n' _ [] (by omega) (by omega)]
        · simp only [Bool.not_eq_true] at hp
          simp only [hp, Bool.false_eq_true, if_false]
          exact ih n' t (c :: acc) hlt hlt'

theorem splitGoF_ne_nil (sep : List Char) :
    ∀ (fuel : Nat) (s acc : List Char), splitGoF sep fuel s acc ≠ [] := by
  intro fuel
  induction fuel with
  | zero =>
    intro s acc
    simp [splitGoF]
  | succ n ih =>
    intro s acc
    cases s with
    | nil => simp [splitGoF]
    | cons c t =>
      simp only [splitGoF]
      by_cases hp : sep.isPrefixOf (c :: t) = true
      · simp [hp]
      · simp only [Bool.not_eq_true] at hp
        simp only [hp, Bool.false_eq_true, if_false]
        exact ih t (c :: acc)

theorem splitGoF_no_occurrence (sep : List Char) :
    ∀ (s acc : List Char) (fuel : Nat), s.length < fuel → containsSub sep s = false →
      splitGoF sep fuel s acc = [acc.reverse ++ s] := by
  intro s
  induction s with
  | nil =>
    intro acc fuel h hc
    cases fuel with
    | zero => omega
    | succ n => simp [splitGoF]
  | cons c t ih =>
    intro acc fuel h hc
    cases fuel with
    | zero => omega
    | succ n =>
      have hc2 : (sep.isPrefixOf (c :: t) || containsSub sep t) = false := hc
      have ha : sep.isPrefixOf (c :: t) = false := by
        cases hx : sep.isPrefixOf (c :: t) with
        | false => rfl
        | true => rw [hx] at hc2; simp at hc2
      have hb : containsSub sep t = false := by
        cases hx : containsSub sep t with
        | false => rfl
        | true => rw [hx] at hc2; simp at hc2
      rw [splitGoF_skip sep n c t acc ha]
      rw [ih (c :: acc) n (by simpa using h) hb]
      simp

theorem splitGoF_decomp (rest : List Char) :
    ∀ (pre acc : List Char) (fuel : Nat),
      (pre ++ (actionMarker ++ rest)).length < fuel →
      (∀ i < pre.length,
        actionMarker.isPrefixOf (List.drop i (pre ++ (actionMarker ++ rest))) = false) →
      splitGoF actionMarker fuel (pre ++ (actionMarker ++ rest)) acc
        = (acc.reverse ++ pre) :: splitGo actionMarker rest := by
  intro pre
  induction pre with
  | nil =>
    intro acc fuel hfuel hpre
    cases fuel with
    | zero => simp at hfuel
    | succ n =>
      have hm : actionMarker = 'A' :: (("ction:").data) := rfl
      show splitGoF actionMarker (n + 1) (actionMarker ++ rest) acc = _
      rw [hm, splitGoF_boundary]
      have hlen : rest.length < n := by
        rw [hm] at hfuel
        simp at hfuel
        omega
      rw [splitGoF_fuel _ n (rest.length + 1) rest [] hlen (by omega)]
      simp [splitGo, hm]
  | cons a pre ih =>
    intro acc fuel hfuel hpre
    cases fuel with
    | zero => simp at hfuel
    | succ n =>
      have h0 : actionMarker.isPrefixOf (a :: (pre ++ (actionMarker ++ rest))) = false := by
        have := hpre 0 (by simp)
        simpa using this
      show splitGoF actionMarker (n + 1) (a :: (pre ++ (actionMarker ++ rest))) acc = _
      rw [splitGoF_skip actionMarker n a _ acc h0]
      rw [ih (a :: acc) n (by simp at hfuel ⊢; omega)
        (fun i hi => by simpa using hpre (i + 1) (by simpa using Nat.succ_lt_succ hi))]
      simp

/-- C2 counterexample: for raw model output containing two `"Action:"`
markers, `step` feeds the parser the text after the FIRST marker, not the
last: on `"Action: Click [1]\nAction: Wait"` the executed action line is
`"Click [1]"`, while the specification's after-the-last-marker rule would
give `"Wait"`. -/
theorem c2_counterexample :
    extract_action_line (("Action: Click [1]\nAction: Wait").data) = ("Click [1]").data
    ∧ spec_after_last_marker (("Action: Click [1]\nAction: Wait").data) = ("Wait").data
    ∧ ("Click [1]").data ≠ ("Wait").data := by
  decide

/-- C2 (amended): for every raw model output containing an `"Action:"`
marker, the text fed to the action parser is the text after the FIRST such
marker — truncated at the next marker (the head segment of splitting the
remainder on the marker), stripped, and truncated at the first newline; in
particular when no further marker follows, it is exactly the stripped first
line of the text after that first marker.  Text before the first marker is
never parsed as the action. -/
theorem c2_first_marker (pre rest : List Char)
    (hpre : ∀ i < pre.length,
      actionMarker.isPrefixOf (List.drop i (pre ++ (actionMarker ++ rest))) = false) :
    extract_action_line (pre ++ (actionMarker ++ rest))
      = firstLine (pstrip ((splitGo actionMarker rest).headD []))
    ∧ (containsSub actionMarker rest = false →
        extract_action_line (pre ++ (actionMarker ++ rest)) = firstLine (pstrip rest)) := by
  have hcontains : containsSub actionMarker (pre ++ (actionMarker ++ rest)) = true := by
    rw [actionMarker_eq]
    exact containsSub_self_append 'A' (("ction:").data) rest pre
  have hsplit : splitGo actionMarker (pre ++ (actionMarker ++ rest))
      = pre :: splitGo actionMarker rest := by
    have := splitGoF_decomp rest pre []
      ((pre ++ (actionMarker ++ rest)).length + 1) (Nat.lt_succ_self _) hpre
    simpa [splitGo] using this
  have hne := splitGoF_ne_nil actionMarker (rest.length + 1) rest []
  have hlen : 1 < (splitGo actionMarker (pre ++ (actionMarker ++ rest))).length := by
    rw [hsplit]
    cases hsg : splitGo actionMarker rest with
    | nil => exact absurd hsg hne
    | cons x xs => simp
  have hparts : (splitGo actionMarker (pre ++ (actionMarker ++ rest))).getD 1 []
      = (splitGo actionMarker rest).headD [] := by
    rw [hsplit]
    cases hsg : splitGo actionMarker rest with
    | nil => exact absurd hsg hne
    | cons x xs => simp
  have hmain : extract_action_line (pre ++ (actionMarker ++ rest))
      = firstLine (pstrip ((splitGo actionMarker rest).headD [])) := by
    rw [extract_action_line]
    rw [hcontains]
    simp only [if_true]
    rw [if_pos hlen, hparts]
  refine ⟨hmain, fun hno => ?_⟩
  have hwhole : splitGo actionMarker rest = [rest] := by
    have := splitGoF_no_occurrence actionMarker rest [] (rest.length + 1)
      (Nat.lt_succ_self _) hno
    simpa [splitGo] using this
  rw [hmain, hwhole]
  rfl

/-- Witness for C2 on a Thought-then-Action output. -/
theorem c2_witness :
    extract_action_line ((("Thought: reasoning\n").data)
        ++ (actionMarker ++ ((" Click [3]\nmore").data)))
      = firstLine (pstrip ((" Click [3]\nmore").data)) :=
  (c2_first_marker (("Thought: reasoning\n").data) ((" Click [3]\nmore").data)
    (by decide)).2 (by decide)

/-- Witness for C1: a page with a described element, a skipped anchor and a
described text input. -/
theorem c1_witness :
    List.Sublist
      (textLabels
        [{ text := ("Hello").data, tagName := ("a").data, typeAttr := none, ariaLabel := none },
         { text := [], tagName := ("a").data, typeAttr := none, ariaLabel := none },
         { text := [], tagName := ("input").data, typeAttr := some (("text").data),
           ariaLabel := some (("Search").data) }])
      (List.range (web_ele_refs
        [{ text := ("Hello").data, tagName := ("a").data, typeAttr := none, ariaLabel := none },
         { text := [], tagName := ("a").data, typeAttr := none, ariaLabel := none },
         { text := [], tagName := ("input").data, typeAttr := some (("text").data),
           ariaLabel := some (("Search").data) }]).length) :=
  (c1_labels_subsequence
    [{ text := ("Hello").data, tagName := ("a").data, typeAttr := none, ariaLabel := none },
     { text := [], tagName := ("a").data, typeAttr := none, ariaLabel := none },
     { text := [], tagName := ("input").data, typeAttr := some (("text").data),
       ariaLabel := some (("Search").data) }]).1
